import Mathlib

/-!
Verification development for the streaming ZIP writer in `src/zipfile.py`.

The Python module is shallowly embedded: byte strings become `List Nat`
(each element a byte value), `struct.pack` calls become explicit
little-endian byte-list builders, in-place mutation of `ZipInfo` objects
becomes explicit state passing (`FileHeader` returns the updated record
together with the produced bytes), and exceptions become `Except`.
Filenames are modelled as byte strings (Python 2 `str`); the `unicode`
branch of `_encodeFilenameFlags` is therefore the identity branch
`return self.filename, self.flag_bits`, exactly as in the source.
-/

namespace Zipseer

/-- Zip64 promotion limit, `ZIP64_LIMIT = (1 << 31) - 1` (src/zipfile.py:20). -/
def ZIP64_LIMIT : Nat := (1 <<< 31) - 1

/-- Entry-count limit, `ZIP_FILECOUNT_LIMIT = (1 << 16) - 1` (src/zipfile.py:21). -/
def ZIP_FILECOUNT_LIMIT : Nat := (1 <<< 16) - 1

/-- Archive-comment limit, `ZIP_MAX_COMMENT = (1 << 16) - 1` (src/zipfile.py:22). -/
def ZIP_MAX_COMMENT : Nat := (1 <<< 16) - 1

/-- Compression method constant `ZIP_STORED = 0` (src/zipfile.py:25). -/
def ZIP_STORED : Nat := 0

/-- Compression method constant `ZIP_DEFLATED = 8` (src/zipfile.py:26). -/
def ZIP_DEFLATED : Nat := 8

/-- One byte of a `struct.pack` field of format `B` (little-endian is moot). -/
def byte (n : Nat) : List Nat := [n % 256]

/-- Two bytes of a `struct.pack` field of format `<H`. -/
def le16 (n : Nat) : List Nat := [n % 256, n / 256 % 256]

/-- Four bytes of a `struct.pack` field of format `<L`. -/
def le32 (n : Nat) : List Nat :=
  [n % 256, n / 256 % 256, n / 65536 % 256, n / 16777216 % 256]

/-- Eight bytes of a `struct.pack` field of format `<Q`. -/
def le64 (n : Nat) : List Nat := le32 (n % 4294967296) ++ le32 (n / 4294967296)

/-- One archive member's metadata: the `__slots__` of class `ZipInfo`
(src/zipfile.py:126-146).  The fields `header_offset`, `CRC`,
`compress_size` and `file_size` are unset slots in Python until `ZipFile`
assigns them; here they are plain `Nat` fields (initialised to `0` by the
constructor model) since no claim depends on the unset-slot error. -/
structure ZipInfo where
  orig_filename : List Nat
  filename : List Nat
  date_time : Nat × Nat × Nat × Nat × Nat × Nat
  compress_type : Nat
  comment : List Nat
  extra : List Nat
  create_system : Nat
  create_version : Nat
  extract_version : Nat
  reserved : Nat
  flag_bits : Nat
  volume : Nat
  internal_attr : Nat
  external_attr : Nat
  header_offset : Nat
  CRC : Nat
  compress_size : Nat
  file_size : Nat
  deriving Repr, DecidableEq

/-- Index of the first null byte of a byte string: Python's
`filename.find(chr(0))`, with `none` for Python's `-1`. -/
def findNull : List Nat → Option Nat
  | [] => none
  | c :: cs => if c = 0 then some 0 else (findNull cs).map (· + 1)

/-- Truncation `if null_byte >= 0: filename = filename[0:null_byte]`
(src/zipfile.py:154-156). -/
def truncateAtNull (filename : List Nat) : List Nat :=
  match findNull filename with
  | some null_byte => filename.take null_byte
  | none => filename

/-- Name normalization of `ZipInfo.__init__` (src/zipfile.py:152-161):
truncate at the first null byte, then
`if os.sep != "/" and os.sep in filename: filename.replace(os.sep, "/")`;
the single-character `str.replace` is the by-character map. -/
def normalizeFilename (osSep : Nat) (filename : List Nat) : List Nat :=
  let filename := truncateAtNull filename
  if osSep ≠ 47 ∧ osSep ∈ filename then
    filename.map (fun c => if c = osSep then 47 else c)
  else filename

/-- The entry record `ZipInfo.__init__` builds (src/zipfile.py:150-189):
normalized filename and the documented standard values.  `isWin32`
models `sys.platform == 'win32'` and `osSep` models `os.sep` as a byte
(47 is `/`). -/
def ZipInfo.mkDefault (isWin32 : Bool) (osSep : Nat) (filename : List Nat)
    (date_time : Nat × Nat × Nat × Nat × Nat × Nat) : ZipInfo where
  orig_filename := filename
  filename := normalizeFilename osSep filename
  date_time := date_time
  compress_type := ZIP_STORED
  comment := []
  extra := []
  create_system := if isWin32 then 0 else 3
  create_version := 20
  extract_version := 20
  reserved := 0
  flag_bits := 0
  volume := 0
  internal_attr := 0
  external_attr := 0
  header_offset := 0
  CRC := 0
  compress_size := 0
  file_size := 0

/-- Constructor `ZipInfo.__init__` (src/zipfile.py:148-189): the
`raise ValueError` on a pre-1980 year (line 166-167) becomes
`Except.error`; otherwise the built record is returned. -/
def ZipInfo.init (isWin32 : Bool) (osSep : Nat) (filename : List Nat)
    (date_time : Nat × Nat × Nat × Nat × Nat × Nat) : Except String ZipInfo :=
  if date_time.1 < 1980 then
    .error "ZIP does not support timestamps before 1980"
  else
    .ok (ZipInfo.mkDefault isWin32 osSep filename date_time)

/-- MS-DOS date word `(dt[0] - 1980) << 9 | dt[1] << 5 | dt[2]`
(src/zipfile.py:194 and 428). -/
def dosDate (dt : Nat × Nat × Nat × Nat × Nat × Nat) : Nat :=
  ((dt.1 - 1980) <<< 9) ||| (dt.2.1 <<< 5) ||| dt.2.2.1

/-- MS-DOS time word `dt[3] << 11 | dt[4] << 5 | (dt[5] // 2)`
(src/zipfile.py:195 and 429). -/
def dosTime (dt : Nat × Nat × Nat × Nat × Nat × Nat) : Nat :=
  (dt.2.2.2.1 <<< 11) ||| (dt.2.2.2.2.1 <<< 5) ||| (dt.2.2.2.2.2 / 2)

/-- Method `ZipInfo.FileHeader` (src/zipfile.py:191-223): returns the
updated entry (the Python method mutates `self.extract_version` and
`self.create_version` on the Zip64 path before packing) together with the
encoded local file header `header + filename + extra`.  The format
`structFileHeader = "<4s2B4HL2L2H"` with signature `PK\x03\x04` is laid
out field by field.  `_encodeFilenameFlags` on a byte-string filename
returns `(self.filename, self.flag_bits)` unchanged. -/
def ZipInfo.FileHeader (z : ZipInfo) : ZipInfo × List Nat :=
  let dosdate := dosDate z.date_time
  let dostime := dosTime z.date_time
  let CRC := if z.flag_bits &&& 0x08 ≠ 0 then 0 else z.CRC
  let compress_size := if z.flag_bits &&& 0x08 ≠ 0 then 0 else z.compress_size
  let file_size := if z.flag_bits &&& 0x08 ≠ 0 then 0 else z.file_size
  let zip64 := ZIP64_LIMIT < file_size ∨ ZIP64_LIMIT < compress_size
  let extra :=
    if zip64 then
      z.extra ++ le16 1 ++ le16 16 ++ le64 file_size ++ le64 compress_size
    else z.extra
  let file_size := if zip64 then 0xffffffff else file_size
  let compress_size := if zip64 then 0xffffffff else compress_size
  let extract_version := if zip64 then max 45 z.extract_version else z.extract_version
  let create_version := if zip64 then max 45 extract_version else z.create_version
  let z' := { z with extract_version := extract_version, create_version := create_version }
  let header :=
    [80, 75, 3, 4] ++ byte extract_version ++ byte z.reserved ++
      le16 z.flag_bits ++ le16 z.compress_type ++ le16 dostime ++ le16 dosdate ++
      le32 CRC ++ le32 compress_size ++ le32 file_size ++
      le16 z.filename.length ++ le16 extra.length
  (z', header ++ z.filename ++ extra)

/-- The Zip64 decision of `ZipFile.writestr` (src/zipfile.py:404-405):
`zip64 = zinfo.file_size > ZIP64_LIMIT or zinfo.compress_size > ZIP64_LIMIT`. -/
def useZip64 (file_size compress_size : Nat) : Bool :=
  decide (ZIP64_LIMIT < file_size) || decide (ZIP64_LIMIT < compress_size)

/-- Packing step of one central directory record (src/zipfile.py:461-482):
the `structCentralDir = "<4s4B4HL2L5H2L"` record with signature
`PK\x01\x02` and disk-start `0`, followed by the filename, the extra
data and the per-entry comment, exactly as the four `self.fp.write`
calls emit them. -/
def centralPack (create_version create_system extract_version reserved flag_bits
    compress_type dostime dosdate crc compress_size file_size internal_attr
    external_attr header_offset : Nat)
    (filename extra_data comment : List Nat) : List Nat :=
  [80, 75, 1, 2] ++ byte create_version ++ byte create_system ++
    byte extract_version ++ byte reserved ++
    le16 flag_bits ++ le16 compress_type ++ le16 dostime ++ le16 dosdate ++
    le32 crc ++ le32 compress_size ++ le32 file_size ++
    le16 filename.length ++ le16 extra_data.length ++ le16 comment.length ++
    le16 0 ++ le16 internal_attr ++ le32 external_attr ++ le32 header_offset ++
    filename ++ extra_data ++ comment

/-- One entry's central directory record, the body of the `for zinfo in
self.filelist` loop of `ZipFile.close` (src/zipfile.py:426-482).  The
Zip64 `extra` value list gathers 64-bit values (sizes first, then
possibly the adjusted header offset); when nonempty it is packed as tag
`1` and prepended to `zinfo.extra`, and the versions are raised to at
least 45.  `start_disk` is `self._start_disk` (always `0` in this
module); `header_offset - start_disk` is Nat subtraction, matching
Python on the in-range values the module produces. -/
def centralRecord (start_disk : Nat) (z : ZipInfo) : List Nat :=
  let dosdate := dosDate z.date_time
  let dostime := dosTime z.date_time
  let sizes : List Nat × Nat × Nat :=
    if ZIP64_LIMIT < z.file_size ∨ ZIP64_LIMIT < z.compress_size then
      ([z.file_size, z.compress_size], 0xffffffff, 0xffffffff)
    else ([], z.compress_size, z.file_size)
  let offs : List Nat × Nat :=
    if ZIP64_LIMIT < z.header_offset - start_disk then
      (sizes.1 ++ [z.header_offset - start_disk], 0xffffffff)
    else (sizes.1, z.header_offset - start_disk)
  let extra := offs.1
  let extra_data :=
    if extra ≠ [] then
      le16 1 ++ le16 (8 * extra.length) ++ extra.flatMap le64 ++ z.extra
    else z.extra
  let extract_version := if extra ≠ [] then max 45 z.extract_version else z.extract_version
  let create_version := if extra ≠ [] then max 45 z.create_version else z.create_version
  centralPack create_version z.create_system extract_version z.reserved
    z.flag_bits z.compress_type dostime dosdate z.CRC sizes.2.1 sizes.2.2
    z.internal_attr z.external_attr offs.2 z.filename extra_data z.comment

/-- Classic end-of-central-directory record
`structEndArchive = "<4s4H2LH"` with signature `PK\x05\x06`, packed as in
src/zipfile.py:512-514 with disk numbers `0, 0`. -/
def endRecord (centDirCount centDirSize centDirOffset commentLen : Nat) : List Nat :=
  [80, 75, 5, 6] ++ le16 0 ++ le16 0 ++ le16 centDirCount ++ le16 centDirCount ++
    le32 centDirSize ++ le32 centDirOffset ++ le16 commentLen

/-- Zip64 end-of-central-directory record
`structEndArchive64 = "<4sQ2H2L4Q"` with signature `PK\x06\x06`, packed
as in src/zipfile.py:498-501 with record size 44, versions 45/45 and disk
numbers `0, 0`. -/
def zip64EndRec (centDirCount centDirSize centDirOffset : Nat) : List Nat :=
  [80, 75, 6, 6] ++ le64 44 ++ le16 45 ++ le16 45 ++ le32 0 ++ le32 0 ++
    le64 centDirCount ++ le64 centDirCount ++ le64 centDirSize ++ le64 centDirOffset

/-- Zip64 end-of-central-directory locator
`structEndArchive64Locator = "<4sLQL"` with signature `PK\x06\x07`,
packed as in src/zipfile.py:504-506: disk `0`, offset `pos2` of the Zip64
end record, total disks `1`. -/
def zip64Locator (pos2 : Nat) : List Nat :=
  [80, 75, 6, 7] ++ le32 0 ++ le64 pos2 ++ le32 1

/-- The `requires_zip64` decision of `ZipFile.close`
(src/zipfile.py:489-495): `None` unless the entry count, the central
directory offset or the central directory size crosses its limit
(strictly), in which case it holds the reason string. -/
def requiresZip64 (centDirCount centDirOffset centDirSize : Nat) : Option String :=
  if ZIP_FILECOUNT_LIMIT < centDirCount then some "Files count"
  else if ZIP64_LIMIT < centDirOffset then some "Central directory offset"
  else if ZIP64_LIMIT < centDirSize then some "Central directory size"
  else none

/-- End-of-archive emission of `ZipFile.close` (src/zipfile.py:484-516)
after the central directory: when `requires_zip64` is set, the Zip64 end
record and locator are written first and the classic record's fields are
saturated with `min`; the classic end record and the archive comment
always follow.  `pos2` is the stream position where the end records
start. -/
def endOfArchiveRecords (centDirCount centDirSize centDirOffset pos2 : Nat)
    (comment : List Nat) : List Nat :=
  match requiresZip64 centDirCount centDirOffset centDirSize with
  | some _ =>
      zip64EndRec centDirCount centDirSize centDirOffset ++ zip64Locator pos2 ++
        endRecord (min centDirCount 0xFFFF) (min centDirSize 0xFFFFFFFF)
          (min centDirOffset 0xFFFFFFFF) comment.length ++ comment
  | none =>
      endRecord centDirCount centDirSize centDirOffset comment.length ++ comment

/-- The writer-side state of a `ZipFile` (src/zipfile.py:237-248):
`filelist` is the ordered entry list, `names` the key set of
`NameToInfo`, plus the `mode`/`fp` flags and the availability of the
`zlib` collaborator that `_writecheck` consults. -/
structure ZipFileState where
  filelist : List ZipInfo
  names : List (List Nat)
  mode : String
  fpOpen : Bool
  zlibAvailable : Bool
  deriving Repr

/-- Method `ZipFile._writecheck` (src/zipfile.py:261-276): returns the
warnings issued (`warnings.warn` on a duplicate name is non-fatal; the
`%r`-formatted name is elided from the message) and the error raised, if
any, in source order. -/
def writecheck (s : ZipFileState) (z : ZipInfo) : List String × Option String :=
  let warns := if z.filename ∈ s.names then ["Duplicate name"] else []
  let err :=
    if s.mode ≠ "w" ∧ s.mode ≠ "a" then
      some "write() requires mode w or a"
    else if ¬ s.fpOpen then
      some "Attempt to write ZIP archive that was already closed"
    else if z.compress_type = ZIP_DEFLATED ∧ ¬ s.zlibAvailable then
      some "Compression requires the (missing) zlib module"
    else if z.compress_type ≠ ZIP_STORED ∧ z.compress_type ≠ ZIP_DEFLATED then
      some "That compression method is not supported"
    else none
  (warns, err)

/-- Method `ZipFile.writestr` on a `ZipInfo` argument
(src/zipfile.py:369-415), with the external collaborators passed in:
`crcFn` is `zlib.crc32` and `deflateFn` the Deflate codec
`co.compress(bytes) + co.flush()`.  `headerOffset` stands for
`self.fp.tell()`.  The result is the warnings issued, the new state and
the bytes written (header, data, and the trailing descriptor when flag
`0x08` is set); `Except.error` models the raised exceptions. -/
def ZipFile.writestr (crcFn : List Nat → Nat) (deflateFn : List Nat → List Nat)
    (s : ZipFileState) (zin : ZipInfo) (bytes : List Nat) (headerOffset : Nat) :
    Except String (List String × ZipFileState × List Nat) :=
  if ¬ s.fpOpen then
    .error "Attempt to write to ZIP archive that was already closed"
  else
    let z := { zin with file_size := bytes.length, header_offset := headerOffset }
    let checked := writecheck s z
    match checked.2 with
    | some e => .error e
    | none =>
      let z := { z with CRC := crcFn bytes &&& 0xffffffff }
      let data := if z.compress_type = ZIP_DEFLATED then deflateFn bytes else bytes
      let z :=
        if z.compress_type = ZIP_DEFLATED then { z with compress_size := data.length }
        else { z with compress_size := z.file_size }
      let zip64 := useZip64 z.file_size z.compress_size
      let hdr := z.FileHeader
      let z := hdr.1
      let descriptor :=
        if z.flag_bits &&& 0x08 ≠ 0 then
          if zip64 then le32 z.CRC ++ le64 z.compress_size ++ le64 z.file_size
          else le32 z.CRC ++ le32 z.compress_size ++ le32 z.file_size
        else []
      .ok (checked.1,
        { s with
          filelist := s.filelist ++ [z]
          names := if z.filename ∈ s.names then s.names else s.names ++ [z.filename] },
        hdr.2 ++ data ++ descriptor)

/-! ### Shape lemmas for `ZipInfo.FileHeader` -/

/-- With the trailing-descriptor flag set, `FileHeader` leaves the entry
unchanged and packs zero placeholders for CRC and sizes. -/
theorem fileHeader_descriptor (z : ZipInfo) (hf : z.flag_bits &&& 0x08 ≠ 0) :
    z.FileHeader =
      (z, [80, 75, 3, 4] ++ byte z.extract_version ++ byte z.reserved ++
        le16 z.flag_bits ++ le16 z.compress_type ++ le16 (dosTime z.date_time) ++
        le16 (dosDate z.date_time) ++ le32 0 ++ le32 0 ++ le32 0 ++
        le16 z.filename.length ++ le16 z.extra.length ++ z.filename ++ z.extra) := by
  simp [ZipInfo.FileHeader, hf, ZIP64_LIMIT]

/-- With the flag clear and a size above `ZIP64_LIMIT`, `FileHeader`
raises the versions, writes sentinel size fields and appends the Zip64
extra sub-field. -/
theorem fileHeader_zip64 (z : ZipInfo) (hf : z.flag_bits &&& 0x08 = 0)
    (hz : ZIP64_LIMIT < z.file_size ∨ ZIP64_LIMIT < z.compress_size) :
    z.FileHeader =
      ({ z with
          extract_version := max 45 z.extract_version,
          create_version := max 45 (max 45 z.extract_version) },
        [80, 75, 3, 4] ++ byte (max 45 z.extract_version) ++ byte z.reserved ++
          le16 z.flag_bits ++ le16 z.compress_type ++ le16 (dosTime z.date_time) ++
          le16 (dosDate z.date_time) ++ le32 z.CRC ++ le32 0xffffffff ++ le32 0xffffffff ++
          le16 z.filename.length ++
          le16 (z.extra ++ le16 1 ++ le16 16 ++ le64 z.file_size ++ le64 z.compress_size).length ++
          z.filename ++
          (z.extra ++ le16 1 ++ le16 16 ++ le64 z.file_size ++ le64 z.compress_size)) := by
  simp [ZipInfo.FileHeader, hf, hz]

/-- With the flag clear and both sizes within `ZIP64_LIMIT`, `FileHeader`
leaves the entry unchanged and packs the true CRC and sizes. -/
theorem fileHeader_plain (z : ZipInfo) (hf : z.flag_bits &&& 0x08 = 0)
    (hz : ¬ (ZIP64_LIMIT < z.file_size ∨ ZIP64_LIMIT < z.compress_size)) :
    z.FileHeader =
      (z, [80, 75, 3, 4] ++ byte z.extract_version ++ byte z.reserved ++
        le16 z.flag_bits ++ le16 z.compress_type ++ le16 (dosTime z.date_time) ++
        le16 (dosDate z.date_time) ++ le32 z.CRC ++ le32 z.compress_size ++
        le32 z.file_size ++ le16 z.filename.length ++ le16 z.extra.length ++
        z.filename ++ z.extra) := by
  simp [ZipInfo.FileHeader, hf, hz]

/-- `FileHeader` never changes the entry's filename. -/
theorem fileHeader_fst_filename (z : ZipInfo) : z.FileHeader.1.filename = z.filename :=
  rfl

/-- A concrete entry used by the witnesses: name `a`, epoch-1980
timestamp, Stored method, defaults everywhere else (the values
`ZipInfo.init` produces on a unix platform). -/
def sampleEntry : ZipInfo where
  orig_filename := [97]
  filename := [97]
  date_time := (1980, 1, 1, 0, 0, 0)
  compress_type := 0
  comment := []
  extra := []
  create_system := 3
  create_version := 20
  extract_version := 20
  reserved := 0
  flag_bits := 0
  volume := 0
  internal_attr := 0
  external_attr := 0
  header_offset := 0
  CRC := 0
  compress_size := 0
  file_size := 0

/-- The sample entry with the trailing-descriptor flag set. -/
def sampleDescriptorEntry : ZipInfo := { sampleEntry with flag_bits := 8 }

/-- The sample entry with the trailing-descriptor flag set and sizes far
beyond `ZIP64_LIMIT`. -/
def sampleBigDescriptorEntry : ZipInfo :=
  { sampleEntry with
      flag_bits := 8,
      file_size := 4294967296,
      compress_size := 4294967296 }

/-- The sample entry with sizes of `2 ^ 32`. -/
def sampleBigEntry : ZipInfo :=
  { sampleEntry with
      file_size := 4294967296,
      compress_size := 4294967296 }

/-- Claim C6: for every entry whose trailing-descriptor flag (bit 0x08)
is set, the encoded local file header carries zero placeholders in the
CRC-32 field (bytes 14-17), the compressed-size field (bytes 18-21) and
the uncompressed-size field (bytes 22-25). -/
theorem C6_descriptor_zero_fields (z : ZipInfo) (hf : z.flag_bits &&& 0x08 ≠ 0) :
    (z.FileHeader.2.drop 14).take 4 = le32 0 ∧
    (z.FileHeader.2.drop 18).take 4 = le32 0 ∧
    (z.FileHeader.2.drop 22).take 4 = le32 0 := by
  rw [fileHeader_descriptor z hf]
  exact ⟨rfl, rfl, rfl⟩

/-- Witness for C6 at a concrete entry with `flag_bits = 8`. -/
theorem C6_witness :
    ((sampleDescriptorEntry.FileHeader.2.drop 14).take 4 = le32 0) ∧
    ((sampleDescriptorEntry.FileHeader.2.drop 18).take 4 = le32 0) ∧
    ((sampleDescriptorEntry.FileHeader.2.drop 22).take 4 = le32 0) :=
  C6_descriptor_zero_fields _ (by decide)

/-- Claim C10: with the trailing-descriptor flag set, the zero
placeholders are substituted before the Zip64 size test, so header
encoding never adds a Zip64 extra sub-field and never raises the
versions: the entry comes back unchanged and the encoded bytes end with
the entry's own extra field, however large `file_size` and
`compress_size` are. -/
theorem C10_descriptor_suppresses_zip64 (z : ZipInfo) (hf : z.flag_bits &&& 0x08 ≠ 0) :
    z.FileHeader.1 = z ∧
    z.FileHeader.2 =
      [80, 75, 3, 4] ++ byte z.extract_version ++ byte z.reserved ++
        le16 z.flag_bits ++ le16 z.compress_type ++ le16 (dosTime z.date_time) ++
        le16 (dosDate z.date_time) ++ le32 0 ++ le32 0 ++ le32 0 ++
        le16 z.filename.length ++ le16 z.extra.length ++ z.filename ++ z.extra := by
  rw [fileHeader_descriptor z hf]
  exact ⟨rfl, rfl⟩

/-- Witness for C10 at a concrete entry with `flag_bits = 8` and sizes
far beyond `ZIP64_LIMIT`. -/
theorem C10_witness :
    sampleBigDescriptorEntry.FileHeader.1 = sampleBigDescriptorEntry ∧
    sampleBigDescriptorEntry.FileHeader.2 =
      [80, 75, 3, 4] ++ byte sampleBigDescriptorEntry.extract_version ++
        byte sampleBigDescriptorEntry.reserved ++
        le16 sampleBigDescriptorEntry.flag_bits ++
        le16 sampleBigDescriptorEntry.compress_type ++
        le16 (dosTime sampleBigDescriptorEntry.date_time) ++
        le16 (dosDate sampleBigDescriptorEntry.date_time) ++
        le32 0 ++ le32 0 ++ le32 0 ++
        le16 sampleBigDescriptorEntry.filename.length ++
        le16 sampleBigDescriptorEntry.extra.length ++
        sampleBigDescriptorEntry.filename ++ sampleBigDescriptorEntry.extra :=
  C10_descriptor_suppresses_zip64 _ (by decide)

/-- Claim C4: for every entry whose local header is encoded with Zip64
enabled (an effective size above the limit, the flag clear), the 32-bit
size fields read the sentinel `0xFFFFFFFF`, the bytes after the filename
are the entry's extra field with a tag-1 sub-field of length 16 holding
the true 64-bit uncompressed and compressed sizes appended, and both
resulting versions are at least 45. -/
theorem C4_zip64_local_header (z : ZipInfo) (hf : z.flag_bits &&& 0x08 = 0)
    (hz : ZIP64_LIMIT < z.file_size ∨ ZIP64_LIMIT < z.compress_size) :
    (z.FileHeader.2.drop 18).take 4 = le32 0xffffffff ∧
    (z.FileHeader.2.drop 22).take 4 = le32 0xffffffff ∧
    z.FileHeader.2.drop (30 + z.filename.length) =
      z.extra ++ le16 1 ++ le16 16 ++ le64 z.file_size ++ le64 z.compress_size ∧
    45 ≤ z.FileHeader.1.extract_version ∧
    45 ≤ z.FileHeader.1.create_version := by
  rw [fileHeader_zip64 z hf hz]
  refine ⟨rfl, rfl, ?_, Nat.le_max_left _ _, Nat.le_max_left _ _⟩
  rw [List.drop_left']
  simp only [List.length_append, List.length_cons, List.length_nil, byte, le16, le32]

/-- Witness for C4 at a concrete entry of uncompressed size `2 ^ 32`. -/
theorem C4_witness :
    ((sampleBigEntry.FileHeader.2.drop 18).take 4 = le32 0xffffffff) ∧
    ((sampleBigEntry.FileHeader.2.drop 22).take 4 = le32 0xffffffff) ∧
    (sampleBigEntry.FileHeader.2.drop (30 + sampleBigEntry.filename.length) =
      sampleBigEntry.extra ++ le16 1 ++ le16 16 ++
        le64 sampleBigEntry.file_size ++ le64 sampleBigEntry.compress_size) ∧
    (45 ≤ sampleBigEntry.FileHeader.1.extract_version) ∧
    (45 ≤ sampleBigEntry.FileHeader.1.create_version) :=
  C4_zip64_local_header _ (by decide) (by decide)

/-- Claim C7: local-header serialization is idempotent: running
`FileHeader` on the entry returned by a first `FileHeader` run (which may
have raised the version fields) produces byte-identical output. -/
theorem C7_fileHeader_idempotent (z : ZipInfo) :
    (z.FileHeader.1).FileHeader.2 = z.FileHeader.2 := by
  by_cases hf : z.flag_bits &&& 0x08 = 0
  · by_cases hz : ZIP64_LIMIT < z.file_size ∨ ZIP64_LIMIT < z.compress_size
    · have h1 := fileHeader_zip64 z hf hz
      have h2 := fileHeader_zip64 { z with
          extract_version := max 45 z.extract_version,
          create_version := max 45 (max 45 z.extract_version) } hf hz
      rw [h1]
      refine (congrArg Prod.snd h2).trans ?_
      have hm : max 45 (max 45 z.extract_version) = max 45 z.extract_version := by
        rw [← Nat.max_assoc, Nat.max_self]
      simp [hm]
    · have h1 := fileHeader_plain z hf hz
      rw [h1]
      exact congrArg Prod.snd h1
  · have h1 := fileHeader_descriptor z hf
    rw [h1]
    exact congrArg Prod.snd h1

/-- Counterexample to C2 as stated: the claim says an uncompressed size
of `2 ^ 32 - 2` must not trigger Zip64 encoding, but `useZip64` (the
`writestr` Zip64 test) is true there, because `ZIP64_LIMIT = 2 ^ 31 - 1`. -/
theorem C2_counterexample : useZip64 4294967294 0 = true := by decide

/-- Claim C2 (corrected): the boundary the code adopts is
`ZIP64_LIMIT = 2 ^ 31 - 1`.  An uncompressed size of `2 ^ 32` forces the
Zip64 path, but so does `2 ^ 32 - 2`; with all other fields equal (the
compressed size within the limit) an uncompressed size of `2 ^ 31 - 1`
does not. -/
theorem C2_zip64_boundary (c : Nat) (hc : c ≤ ZIP64_LIMIT) :
    useZip64 4294967296 c = true ∧
    useZip64 4294967294 c = true ∧
    useZip64 ZIP64_LIMIT c = false := by
  have h1 : ZIP64_LIMIT < 4294967296 := by decide
  have h2 : ZIP64_LIMIT < 4294967294 := by decide
  have h3 : ¬ ZIP64_LIMIT < ZIP64_LIMIT := Nat.lt_irrefl _
  have h4 : ¬ ZIP64_LIMIT < c := Nat.not_lt.mpr hc
  exact ⟨by simp [useZip64, h1], by simp [useZip64, h2], by simp [useZip64, h3, h4]⟩

/-- Witness for C2 at compressed size `0`. -/
theorem C2_witness :
    useZip64 4294967296 0 = true ∧
    useZip64 4294967294 0 = true ∧
    useZip64 ZIP64_LIMIT 0 = false :=
  C2_zip64_boundary 0 (by decide)

/-- When any of the three `close`-time limits is crossed,
`requires_zip64` holds a reason string. -/
theorem requiresZip64_isSome (c o s : Nat)
    (h : ZIP_FILECOUNT_LIMIT < c ∨ ZIP64_LIMIT < o ∨ ZIP64_LIMIT < s) :
    ∃ m, requiresZip64 c o s = some m := by
  by_cases h1 : ZIP_FILECOUNT_LIMIT < c
  · exact ⟨"Files count", by simp [requiresZip64, h1]⟩
  · by_cases h2 : ZIP64_LIMIT < o
    · exact ⟨"Central directory offset", by simp [requiresZip64, h1, h2]⟩
    · have h3 : ZIP64_LIMIT < s := by
        rcases h with h | h | h
        · exact absurd h h1
        · exact absurd h h2
        · exact h
      exact ⟨"Central directory size", by simp [requiresZip64, h1, h2, h3]⟩

/-- Counterexample to C3 as stated: the claim's condition demands the
Zip64 end records already at an entry count of exactly 65535, but the
code's test is strict (`count > ZIP_FILECOUNT_LIMIT`), so a 65535-entry
archive gets only the 22-byte classic end record. -/
theorem C3_counterexample :
    requiresZip64 65535 0 0 = none ∧
    endOfArchiveRecords 65535 0 0 0 [] = endRecord 65535 0 0 0 := by
  exact ⟨rfl, rfl⟩

/-- Claim C3 (corrected): whenever the entry count strictly exceeds
65535, or the central-directory offset or byte size strictly exceeds
`ZIP64_LIMIT = 2 ^ 31 - 1`, the Zip64 end record and locator are emitted
before the classic end record, whose count/size/offset fields are
saturated with `min` to `0xFFFF` / `0xFFFFFFFF` rather than wrapping. -/
theorem C3_end_records_zip64 (count size offset pos2 : Nat) (comment : List Nat)
    (h : ZIP_FILECOUNT_LIMIT < count ∨ ZIP64_LIMIT < offset ∨ ZIP64_LIMIT < size) :
    endOfArchiveRecords count size offset pos2 comment =
      zip64EndRec count size offset ++ zip64Locator pos2 ++
        endRecord (min count 0xFFFF) (min size 0xFFFFFFFF) (min offset 0xFFFFFFFF)
          comment.length ++ comment := by
  obtain ⟨m, hm⟩ := requiresZip64_isSome count offset size h
  simp [endOfArchiveRecords, hm]

/-- Witness for C3: an archive of 70000 entries emits the Zip64 end
record and locator, and the classic record's entry-count field is
saturated (`min 70000 0xFFFF = 0xFFFF`). -/
theorem C3_witness :
    endOfArchiveRecords 70000 100 200 300 [] =
      zip64EndRec 70000 100 200 ++ zip64Locator 300 ++
        endRecord (min 70000 0xFFFF) (min 100 0xFFFFFFFF) (min 200 0xFFFFFFFF)
          (List.length ([] : List Nat)) ++ ([] : List Nat) :=
  C3_end_records_zip64 70000 100 200 300 [] (Or.inl (by decide))

/-- Claim C8: entry construction fails exactly when the timestamp year
is below 1980, and never fails on the timestamp for a year of at least
1980. -/
theorem C8_year_floor (isWin32 : Bool) (osSep : Nat) (fn : List Nat)
    (dt : Nat × Nat × Nat × Nat × Nat × Nat) :
    (dt.1 < 1980 →
      ZipInfo.init isWin32 osSep fn dt =
        .error "ZIP does not support timestamps before 1980") ∧
    (1980 ≤ dt.1 →
      ZipInfo.init isWin32 osSep fn dt =
        .ok (ZipInfo.mkDefault isWin32 osSep fn dt)) := by
  constructor
  · intro h
    simp [ZipInfo.init, h]
  · intro h
    simp [ZipInfo.init, Nat.not_lt.mpr h]

/-- Witness for C8 at years 1979 (fails) and 1980 (succeeds). -/
theorem C8_witness :
    (ZipInfo.init false 47 [97] (1979, 1, 1, 0, 0, 0) =
      .error "ZIP does not support timestamps before 1980") ∧
    (ZipInfo.init false 47 [97] (1980, 1, 1, 0, 0, 0) =
      .ok (ZipInfo.mkDefault false 47 [97] (1980, 1, 1, 0, 0, 0))) :=
  ⟨(C8_year_floor false 47 [97] (1979, 1, 1, 0, 0, 0)).1 (by decide),
   (C8_year_floor false 47 [97] (1980, 1, 1, 0, 0, 0)).2 (by decide)⟩

/-- Truncating at the first null byte keeps exactly the null-free
prefix. -/
theorem truncateAtNull_eq_takeWhile (l : List Nat) :
    truncateAtNull l = l.takeWhile (fun c => c != 0) := by
  induction l with
  | nil => rfl
  | cons c cs ih =>
    by_cases hc : c = 0
    · subst hc
      simp [truncateAtNull, findNull]
    · have hcb : (c != 0) = true := bne_iff_ne.mpr hc
      have hR : List.takeWhile (fun c => c != 0) (c :: cs) =
          c :: List.takeWhile (fun c => c != 0) cs := by
        simp [List.takeWhile_cons, hcb]
      cases h : findNull cs with
      | none =>
        have hL : truncateAtNull (c :: cs) = c :: cs := by
          simp [truncateAtNull, findNull, hc, h]
        simp only [truncateAtNull, h] at ih
        rw [hL, hR, ← ih]
      | some i =>
        have hL : truncateAtNull (c :: cs) = c :: cs.take i := by
          simp [truncateAtNull, findNull, hc, h]
        simp only [truncateAtNull, h] at ih
        rw [hL, hR, ih]

/-- Replacing the separator is the identity when the separator is `/` or
does not occur. -/
theorem map_sep_id (osSep : Nat) (l : List Nat)
    (h : osSep = 47 ∨ ∀ c ∈ l, c ≠ osSep) :
    l.map (fun c => if c = osSep then 47 else c) = l := by
  induction l with
  | nil => rfl
  | cons c cs ih =>
    have hc : (if c = osSep then 47 else c) = c := by
      rcases h with h | h
      · subst h
        split
        · rename_i hh
          exact hh.symm
        · rfl
      · have hne := h c (List.mem_cons_self c cs)
        split
        · rename_i hh
          exact absurd hh hne
        · rfl
    have ih' : cs.map (fun c => if c = osSep then 47 else c) = cs := by
      refine ih (h.imp id fun hh d hd => hh d (List.mem_cons_of_mem _ hd))
    simp only [List.map_cons, hc, ih']

/-- The normalized name equals the null-free prefix with every separator
byte replaced by `/`. -/
theorem normalizeFilename_eq (osSep : Nat) (l : List Nat) :
    normalizeFilename osSep l =
      (l.takeWhile (fun c => c != 0)).map (fun c => if c = osSep then 47 else c) := by
  rw [normalizeFilename, truncateAtNull_eq_takeWhile]
  split
  · rfl
  · rename_i h
    rw [map_sep_id]
    by_cases h47 : osSep = 47
    · exact Or.inl h47
    · refine Or.inr fun c hc hce => ?_
      exact h ⟨h47, hce ▸ hc⟩

/-- Claim C9: for every filename, construction stores the name truncated
at the first embedded null byte with every platform separator byte
replaced by a forward slash, so the stored name contains no null byte
and (when the separator is not already `/`) no separator byte. -/
theorem C9_filename_normalization (isWin32 : Bool) (osSep : Nat) (fn : List Nat)
    (dt : Nat × Nat × Nat × Nat × Nat × Nat) (h : 1980 ≤ dt.1) :
    ∃ z, ZipInfo.init isWin32 osSep fn dt = .ok z ∧
      z.filename =
        (fn.takeWhile (fun c => c != 0)).map (fun c => if c = osSep then 47 else c) ∧
      ¬ (0 ∈ z.filename) ∧
      (osSep ≠ 47 → ¬ (osSep ∈ z.filename)) := by
  refine ⟨ZipInfo.mkDefault isWin32 osSep fn dt, ?_, ?_, ?_, ?_⟩
  · simp [ZipInfo.init, Nat.not_lt.mpr h]
  · exact normalizeFilename_eq osSep fn
  · show ¬ (0 ∈ normalizeFilename osSep fn)
    rw [normalizeFilename_eq]
    intro hmem
    obtain ⟨c, hc, hce⟩ := List.mem_map.mp hmem
    have hpc := List.mem_takeWhile_imp hc
    have hcne : c ≠ 0 := by simpa using hpc
    by_cases hcs : c = osSep
    · rw [if_pos hcs] at hce
      exact absurd hce (by decide)
    · rw [if_neg hcs] at hce
      exact hcne hce
  · intro h47
    show ¬ (osSep ∈ normalizeFilename osSep fn)
    rw [normalizeFilename_eq]
    intro hmem
    obtain ⟨c, hc, hce⟩ := List.mem_map.mp hmem
    by_cases hcs : c = osSep
    · rw [if_pos hcs] at hce
      exact h47 hce.symm
    · rw [if_neg hcs] at hce
      exact hcs hce

/-- Witness for C9: separator `92` (backslash), name
`a \ b NUL \ c`: the stored name is `a / b`. -/
theorem C9_witness :
    ∃ z, ZipInfo.init false 92 [97, 92, 98, 0, 92, 99] (1985, 2, 3, 4, 5, 6) = .ok z ∧
      z.filename =
        (([97, 92, 98, 0, 92, 99] : List Nat).takeWhile (fun c => c != 0)).map
          (fun c => if c = 92 then 47 else c) ∧
      ¬ (0 ∈ z.filename) ∧
      ((92 : Nat) ≠ 47 → ¬ (92 ∈ z.filename)) :=
  C9_filename_normalization false 92 [97, 92, 98, 0, 92, 99] (1985, 2, 3, 4, 5, 6)
    (by decide)

/-- The sample entry placed at a local-header offset beyond
`ZIP64_LIMIT`, with small sizes. -/
def sampleOffsetEntry : ZipInfo := { sampleEntry with header_offset := 4294967296 }

/-- Bytes 16-19 of `centralPack` are the packed CRC. -/
theorem centralPack_crc_field {a b c d e f g h i j k l m n : Nat}
    {fn ed cm : List Nat} :
    ((centralPack a b c d e f g h i j k l m n fn ed cm).drop 16).take 4 = le32 i := by
  simp [centralPack, byte, le16, le32]

/-- Bytes 20-23 of `centralPack` are the packed compressed size. -/
theorem centralPack_csize_field {a b c d e f g h i j k l m n : Nat}
    {fn ed cm : List Nat} :
    ((centralPack a b c d e f g h i j k l m n fn ed cm).drop 20).take 4 = le32 j := by
  simp [centralPack, byte, le16, le32]

/-- Bytes 24-27 of `centralPack` are the packed uncompressed size. -/
theorem centralPack_fsize_field {a b c d e f g h i j k l m n : Nat}
    {fn ed cm : List Nat} :
    ((centralPack a b c d e f g h i j k l m n fn ed cm).drop 24).take 4 = le32 k := by
  simp [centralPack, byte, le16, le32]

/-- Bytes 42-45 of `centralPack` are the packed local-header offset. -/
theorem centralPack_offset_field {a b c d e f g h i j k l m n : Nat}
    {fn ed cm : List Nat} :
    ((centralPack a b c d e f g h i j k l m n fn ed cm).drop 42).take 4 = le32 n := by
  simp [centralPack, byte, le16, le32]

/-- After the 46 fixed bytes and the filename, `centralPack` carries the
extra data and the comment. -/
theorem centralPack_tail {a b c d e f g h i j k l m n : Nat}
    {fn ed cm : List Nat} :
    (centralPack a b c d e f g h i j k l m n fn ed cm).drop (46 + fn.length) =
      ed ++ cm := by
  rw [← List.drop_drop]
  simp [centralPack, byte, le16, le32, List.drop_left]

/-- Claim C5: the central record always carries the true CRC (bytes
16-19 read `le32 z.CRC`, whatever `flag_bits` holds), carries the true
sizes whenever they are within the limit, and Zip64-promotes the
local-header offset independently: when the adjusted offset alone
exceeds `ZIP64_LIMIT`, the offset field (bytes 42-45) reads the sentinel
and the 64-bit offset opens the Zip64 extra sub-field, even though the
sizes did not require Zip64. -/
theorem C5_central_record (z : ZipInfo) (sd : Nat) :
    (((centralRecord sd z).drop 16).take 4 = le32 z.CRC) ∧
    (z.file_size ≤ ZIP64_LIMIT → z.compress_size ≤ ZIP64_LIMIT →
      ((centralRecord sd z).drop 20).take 4 = le32 z.compress_size ∧
      ((centralRecord sd z).drop 24).take 4 = le32 z.file_size) ∧
    (z.file_size ≤ ZIP64_LIMIT → z.compress_size ≤ ZIP64_LIMIT →
      ZIP64_LIMIT < z.header_offset - sd →
      ((centralRecord sd z).drop 42).take 4 = le32 0xffffffff ∧
      (centralRecord sd z).drop (46 + z.filename.length) =
        le16 1 ++ le16 8 ++ le64 (z.header_offset - sd) ++ z.extra ++ z.comment) := by
  refine ⟨centralPack_crc_field, ?_, ?_⟩
  · intro hs1 hs2
    have hc : ¬ (ZIP64_LIMIT < z.file_size ∨ ZIP64_LIMIT < z.compress_size) := by
      push_neg
      exact ⟨hs1, hs2⟩
    constructor
    · refine Eq.trans centralPack_csize_field ?_
      rw [if_neg hc]
    · refine Eq.trans centralPack_fsize_field ?_
      rw [if_neg hc]
  · intro hs1 hs2 ho
    have hc : ¬ (ZIP64_LIMIT < z.file_size ∨ ZIP64_LIMIT < z.compress_size) := by
      push_neg
      exact ⟨hs1, hs2⟩
    constructor
    · refine Eq.trans centralPack_offset_field ?_
      rw [if_pos ho]
    · refine Eq.trans centralPack_tail ?_
      rw [if_neg hc, if_pos ho]
      simp [le16, le32, le64]

/-- Witness for C5 at a concrete entry with offset `2 ^ 32` and small
sizes. -/
theorem C5_witness :
    (((centralRecord 0 sampleOffsetEntry).drop 16).take 4 = le32 sampleOffsetEntry.CRC) ∧
    (((centralRecord 0 sampleOffsetEntry).drop 20).take 4 =
      le32 sampleOffsetEntry.compress_size) ∧
    (((centralRecord 0 sampleOffsetEntry).drop 24).take 4 =
      le32 sampleOffsetEntry.file_size) ∧
    (((centralRecord 0 sampleOffsetEntry).drop 42).take 4 = le32 0xffffffff) ∧
    ((centralRecord 0 sampleOffsetEntry).drop (46 + sampleOffsetEntry.filename.length) =
      le16 1 ++ le16 8 ++ le64 (sampleOffsetEntry.header_offset - 0) ++
        sampleOffsetEntry.extra ++ sampleOffsetEntry.comment) := by
  obtain ⟨h1, h2, h3⟩ := C5_central_record sampleOffsetEntry 0
  obtain ⟨h4, h5⟩ := h2 (by decide) (by decide)
  obtain ⟨h6, h7⟩ := h3 (by decide) (by decide) (by decide)
  exact ⟨h1, h4, h5, h6, h7⟩

/-- True when a modelled call returns without raising. -/
def noRaise {α : Type} : Except String α → Bool
  | .ok _ => true
  | .error _ => false

/-- A state whose archive already holds an entry named `a`. -/
def dupState : ZipFileState where
  filelist := [sampleEntry]
  names := [[97]]
  mode := "w"
  fpOpen := true
  zlibAvailable := true

/-- Counterexample to C1 as stated: adding a second entry named `a` to
an archive that already holds one does not raise any error — the call
returns successfully (the duplicate is only warned about), so no
DuplicateNameError is raised on the second add. -/
theorem C1_counterexample :
    noRaise (ZipFile.writestr (fun _ => 0) (fun b => b) dupState sampleEntry [] 0) =
      true := by
  rfl

/-- Claim C1 (corrected): a duplicate name is not a fatal error:
`_writecheck` issues only a `Duplicate name` warning and `writestr`
accepts the second entry, appending it to `filelist` (not merged), while
the `NameToInfo` key set is unchanged (the name is re-bound). -/
theorem C1_duplicate_name_warns (crcFn : List Nat → Nat)
    (deflateFn : List Nat → List Nat) (s : ZipFileState) (zin : ZipInfo)
    (bytes : List Nat) (off : Nat) (hOpen : s.fpOpen = true)
    (hMode : s.mode = "w") (hStored : zin.compress_type = ZIP_STORED)
    (hDup : zin.filename ∈ s.names) :
    ∃ st out, ZipFile.writestr crcFn deflateFn s zin bytes off =
        .ok (["Duplicate name"], st, out) ∧
      st.filelist.length = s.filelist.length + 1 ∧
      st.names = s.names := by
  simp [ZipFile.writestr, writecheck, hOpen, hMode, hStored, hDup,
    ZIP_STORED, ZIP_DEFLATED, fileHeader_fst_filename]

/-- Witness for C1: the second `a`-named entry is accepted into
`dupState` with a warning. -/
theorem C1_witness :
    ∃ st out, ZipFile.writestr (fun _ => 0) (fun b => b) dupState sampleEntry [] 5 =
        .ok (["Duplicate name"], st, out) ∧
      st.filelist.length = dupState.filelist.length + 1 ∧
      st.names = dupState.names :=
  C1_duplicate_name_warns (fun _ => 0) (fun b => b) dupState sampleEntry [] 5
    rfl rfl rfl (by decide)

end Zipseer
